import Mathlib

/-!
Verification of `scripts/build_powerplants.py`: a shallow embedding of the
dataframe pipeline that builds the powerplants table, together with proofs
about its stages.

Modelling conventions:
* a dataframe row is a `Row`; nullable pandas cells are `Option` values and
  `NaN` is `none`;
* numeric columns (`Capacity`, `DateIn`, `DateOut`, `Efficiency`, `lat`,
  `lon`) carry `Int` values: the script only assigns them, tests them for
  null and takes min/max, so the embedding into `Int` is faithful for every
  operation performed here;
* a dataframe is a list of index/row pairs (`DF`), the `Nat` being the pandas
  row-index label;
* pandas query strings are represented by the row predicate they denote,
  passed alongside the configuration value.
-/

/-- One powerplant record (one dataframe row). -/
structure Row where
  Name : Option String := none
  Fueltype : Option String := none
  Technology : Option String := none
  Set : Option String := none
  Country : Option String := none
  Capacity : Option Int := none
  DateIn : Option Int := none
  DateOut : Option Int := none
  Efficiency : Option Int := none
  lat : Option Int := none
  lon : Option Int := none
  bus : Option String := none
  deriving DecidableEq, Repr, Inhabited

/-- A dataframe: rows labelled with their pandas index. -/
abbrev DF := List (Nat × Row)

/-- A freshly range-indexed frame (`RangeIndex`), as produced by
`pd.read_csv` or by `ignore_index=True`. -/
def mkDF (rows : List Row) : DF := (List.range rows.length).zip rows

/-- The Python values the `custom_powerplants` / `powerplants_filter`
configuration options can take (a boolean, a query string, an integer, or
`None`). -/
inductive PyVal where
  | pbool (b : Bool)
  | pstr (s : String)
  | pint (n : Int)
  | pnone
  deriving DecidableEq, Repr

/-- Python truthiness of such a value: `False`, `""`, `0` and `None` are
falsy. -/
def PyVal.truthy : PyVal → Bool
  | .pbool b => b
  | .pstr s => s ≠ ""
  | .pint n => n ≠ 0
  | .pnone => false

/-- Model of `pd.concat([a, b], ...)`. pandas keeps the row order `a ++ b`.  With
`ignore_index=True` the result gets a fresh `RangeIndex`, otherwise the two
indexes are appended.  `verify_integrity=True` checks the *new concatenated
index* — not row contents — for duplicates and raises
`ValueError: Indexes have overlapping values` when it has any. -/
def pdConcat (a b : DF) (ignoreIndex verifyIntegrity : Bool) : Except String DF :=
  let rows := a.map Prod.snd ++ b.map Prod.snd
  let idx := if ignoreIndex then List.range rows.length
    else a.map Prod.fst ++ b.map Prod.fst
  if verifyIntegrity && ! decide idx.Nodup then
    Except.error "Indexes have overlapping values"
  else
    Except.ok (idx.zip rows)

/-- Model of `add_custom_powerplants(ppl, custom_powerplants, custom_ppl_query)`
(lines 100-108).  `custom` is the frame `pd.read_csv` would produce from the
custom CSV and `queryPred` is the row predicate denoted by the query string
(only consulted when the option is a string). -/
def add_custom_powerplants (ppl custom : DF) (custom_ppl_query : PyVal)
    (queryPred : Row → Bool) : Except String DF :=
  if ! custom_ppl_query.truthy then
    Except.ok ppl
  else
    let add_ppls := match custom_ppl_query with
      | .pstr _ => custom.filter fun e => queryPred e.2
      | _ => custom
    pdConcat ppl add_ppls true true

/-- One row of `n.buses.query("substation_lv")`: coordinates and country of a
substation; the bus label is the list key it is paired with. -/
structure Substation where
  x : Int
  y : Int
  country : String
  deriving DecidableEq, Repr, Inhabited

/-- Model of `Series.min()`: NaN entries are skipped, an empty or all-NaN series has a
NaN minimum. -/
def seriesMin (l : List (Option Int)) : Option Int := (l.filterMap id).min?

/-- Model of `Series.max()`: NaN entries are skipped, an empty or all-NaN series has a
NaN maximum. -/
def seriesMax (l : List (Option Int)) : Option Int := (l.filterMap id).max?

/-- One synthetic everywhere-powerplant row: the rename `x→lon, y→lat,
country→Country` followed by the column assignments of
`add_everywhere_powerplants` (lines 124-143); columns the frame does not
have are null after the later concat. -/
def everywhereRow (dateIn dateOut : Option Int) (ft : String) (s : Substation) : Row :=
  { Name := some ("Automatically added everywhere-powerplant " ++ ft)
    Fueltype := some ft
    Technology := some ft
    Set := some "PP"
    Country := some s.country
    Capacity := some 0
    DateIn := dateIn
    DateOut := dateOut
    Efficiency := none
    lat := some s.y
    lon := some s.x
    bus := none }

/-- Model of `add_everywhere_powerplants(ppl, substations, everywhere_powerplants)`
(lines 111-147): the cross product of substation labels and fuel types
(`itertools.product`), an inner merge with the substation table on its
index, the default-value column assignments, and the final concat with
`ignore_index=True, verify_integrity=True`. -/
def add_everywhere_powerplants (ppl : DF) (substations : List (String × Substation))
    (everywhere_powerplants : List String) : Except String DF :=
  let prod := substations.flatMap fun s => everywhere_powerplants.map fun ft => (s.1, ft)
  let merged := prod.flatMap fun p =>
    (substations.filter fun s => s.1 == p.1).map fun s => (p.2, s.2)
  let dIn := seriesMin (ppl.map fun e => e.2.DateIn)
  let dOut := seriesMax (ppl.map fun e => e.2.DateOut)
  let everywhere_ppl := mkDF (merged.map fun q => everywhereRow dIn dOut q.1 q.2)
  pdConcat ppl everywhere_ppl true true

/-- Model of `replace_natural_gas_technology(df)` (lines 150-153) at one row: the value
of `df.Technology.replace(mapping).fillna("CCGT")` masked onto the rows with
`Fueltype == "Natural Gas"`; `Series.replace` maps the two dictionary keys
and keeps every other value (NaN included), `fillna` then replaces NaN. -/
def replace_natural_gas_technology (r : Row) : Option String :=
  let replaced := if r.Technology = some "Steam Turbine" then some "CCGT"
    else if r.Technology = some "Combustion Engine" then some "OCGT"
    else r.Technology
  let tech := match replaced with
    | none => some "CCGT"
    | some t => some t
  if r.Fueltype = some "Natural Gas" then tech else r.Technology

/-- Model of `replace_natural_gas_fueltype(df)` (lines 156-159) at one row: `Fueltype`
masked with "Natural Gas" where `Technology` is OCGT or CCGT (a NaN
`Technology` compares unequal to both). -/
def replace_natural_gas_fueltype (r : Row) : Option String :=
  if r.Technology = some "OCGT" ∨ r.Technology = some "CCGT" then some "Natural Gas"
  else r.Fueltype

/-- Model of `.assign(Technology=replace_natural_gas_technology)` followed by
`.assign(Fueltype=replace_natural_gas_fueltype)` at one row: the second
assign sees the already-updated `Technology` column. -/
def canonicalizeRow (r : Row) : Row :=
  let r1 := { r with Technology := replace_natural_gas_technology r }
  { r1 with Fueltype := replace_natural_gas_fueltype r1 }

/-- The two chained `.assign` calls of lines 178-179 on a whole frame. -/
def canonicalizeDF (df : DF) : DF := df.map fun e => (e.1, canonicalizeRow e.2)

/-- The bioenergy correction of lines 183-188: filter the (already
alpha-2-converted) OPSD frame to bioenergy rows in the target countries, set
their `Name` to "Biomass", drop the primary bioenergy rows of the countries
covered, and concatenate with a plain `pd.concat` (no `ignore_index`, no
`verify_integrity`).  `Country in @countries` is False at a NaN country. -/
def biomassCorrection (ppl opsd : DF) (countries : List String) : Except String DF :=
  let opsdF := opsd.filter fun e =>
    (match e.2.Country with | some c => countries.contains c | none => false)
      && e.2.Fueltype == some "Bioenergy"
  let opsdN : DF := opsdF.map fun e => (e.1, { e.2 with Name := some "Biomass" })
  let available_countries := (opsdN.filterMap fun e => e.2.Country).dedup
  let pplF := ppl.filter fun e =>
    ! ((match e.2.Country with
        | some c => available_countries.contains c
        | none => false)
      && e.2.Fueltype == some "Bioenergy")
  pdConcat pplF opsdN false false

/-- Lines 212-218: compute the null-bus mask; when any row has a null bus,
log a warning carrying the mask's true-count and keep only the unmasked
rows.  Returns the resulting frame and the warned count (`none` when no
warning is emitted). -/
def dropMissingBus (df : DF) : DF × Option Nat :=
  let bus_null_b := df.map fun e => e.2.bus.isNone
  if bus_null_b.any id then
    ((df.zip bus_null_b).filterMap fun p => if p.2 then none else some p.1,
      some (bus_null_b.count true))
  else (df, none)

/-- The `(bus, Fueltype)` groupby key of a row. -/
def rowKey (r : Row) : Option String × Option String := (r.bus, r.Fueltype)

/-- Model of `groupby(["bus", "Fueltype"]).cumcount() + 1` at one row, given the rows
before it: the 1-based position of the row inside its key group.  pandas
groups only rows whose key has no NaN component; a row with a NaN key
component belongs to no group and its cumcount is NaN (`none`). -/
def cumcount1 (seen : List Row) (r : Row) : Option Nat :=
  match r.bus, r.Fueltype with
  | some _, some _ => some ((seen.filter fun s => rowKey s == rowKey r).length + 1)
  | _, _ => none

/-- The string `cumcount.astype(str)` renders for a grouped row's count.
The dtype of the cumcount series is a property of the whole frame: when
some row has a NaN key component, pandas (1.5 and later) marks the
grouping as having dropped NA keys and returns a float64 series, so the
integer count `k` prints as "k.0"; otherwise the series is int64 and `k`
prints as "k". -/
def cumcountStr (floatFmt : Bool) (k : Nat) : String :=
  if floatFmt then toString k ++ ".0" else toString k

/-- Model of `ppl.Name.where(cumcount == 1, ppl.Name + " " + cumcount.astype(str))` at
one row: position 1 keeps the name (the float comparison `1.0 == 1` also
holds), later positions get the rendered count appended; a NaN cumcount
compares unequal to 1 and prints as "nan", and a NaN name stays NaN under
pandas string addition. -/
def renameRow (floatFmt : Bool) (seen : List Row) (r : Row) : Row :=
  match cumcount1 seen r with
  | some k =>
      if k = 1 then r
      else { r with Name := r.Name.map fun n => n ++ " " ++ cumcountStr floatFmt k }
  | none => { r with Name := r.Name.map fun n => n ++ " " ++ "nan" }

/-- Worker for the deduplication pass: `seen` holds the rows already
traversed, in order. -/
def dedupNamesGo (floatFmt : Bool) (seen : List Row) : List Row → List Row
  | [] => []
  | r :: rest => renameRow floatFmt seen r :: dedupNamesGo floatFmt (seen ++ [r]) rest

/-- The whole name-deduplication pass of lines 221-222.  The suffix format
is fixed per frame by the cumcount dtype: float64 exactly when some row has
a NaN `(bus, Fueltype)` key component, int64 otherwise. -/
def dedupNames (rows : List Row) : List Row :=
  dedupNamesGo (rows.any fun r => r.bus.isNone || r.Fueltype.isNone) [] rows

/-- The `__main__` pipeline from the first `ppl` assignment to the frame
written out (lines 173-224).  External inputs become parameters: `pplRaw`
is the powerplantmatching frame after decommissioning-year filling and
alpha-2 conversion, `opsd` the OPSD_VRE frame after alpha-2 conversion, and
`busOf` the nearest-bus assignment done by `map_country_bus` (an external
library call: it fills the `bus` column, null where no substation is close
enough).  Query strings come with the row predicates they denote.  The
result is the final row list (after `reset_index(drop=True)`) paired with
the count carried by the missing-bus warning, if one was emitted. -/
def buildPowerplants (pplRaw : DF) (countries : List String) (opsd : DF)
    (powerplants_filter : PyVal) (filterPred : Row → Bool)
    (custom : DF) (custom_ppl_query : PyVal) (customPred : Row → Bool)
    (substations : List (String × Substation)) (everywhere_powerplants : List String)
    (busOf : Row → Option String) : Except String (List Row × Option Nat) := do
  let ppl0 := pplRaw.filter fun e =>
    e.2.Fueltype != some "Solar" && e.2.Fueltype != some "Wind"
      && (match e.2.Country with | some c => countries.contains c | none => false)
  let ppl1 := canonicalizeDF ppl0
  let ppl2 ← biomassCorrection ppl1 opsd countries
  let ppl3 := match powerplants_filter with
    | .pstr _ => ppl2.filter fun e => filterPred e.2
    | _ => ppl2
  let ppl4 ← add_custom_powerplants ppl3 custom custom_ppl_query customPred
  let ppl5 ← add_everywhere_powerplants ppl4 substations everywhere_powerplants
  let ppl6 := ppl5.filter fun e => e.2.lat.isSome && e.2.lon.isSome
  let ppl7 : DF := ppl6.map fun e => (e.1, { e.2 with bus := busOf e.2 })
  let done := dropMissingBus ppl7
  pure (dedupNames (done.1.map Prod.snd), done.2)

/-! ## Basic facts about the concatenation model -/

/-- With `ignore_index=True` the result index is `range`, which never has
duplicates, so the `verify_integrity` check always passes. -/
theorem pdConcat_ignoreIndex (a b : DF) (vi : Bool) :
    pdConcat a b true vi = Except.ok (mkDF (a.map Prod.snd ++ b.map Prod.snd)) := by
  unfold pdConcat mkDF
  simp [List.nodup_range]

/-- A plain `pd.concat` (no index reset, no integrity check) appends the two
frames. -/
theorem pdConcat_plain (a b : DF) : pdConcat a b false false = Except.ok (a ++ b) := by
  unfold pdConcat
  simp only [Bool.false_and, if_neg Bool.false_ne_true]
  rw [List.zip_append (by simp), List.zip_map' Prod.fst Prod.snd,
    List.zip_map' Prod.fst Prod.snd]
  simp

/-! ## C1 -/

/-- C1 counterexample: `add_custom_powerplants` concatenates a base frame with
a custom frame holding an exactly identical row, and the concatenation
succeeds instead of failing, while the result contains an exact full-row
duplicate — refuting "fails iff some row of the result is an exact full-row
duplicate of another". -/
theorem add_custom_duplicate_row_succeeds :
    add_custom_powerplants [(0, { Name := some "Dup" })] [(0, { Name := some "Dup" })]
        (PyVal.pbool true) (fun _ => true) =
      Except.ok [(0, { Name := some "Dup" }), (1, { Name := some "Dup" })] ∧
    ¬ ([(0, ({ Name := some "Dup" } : Row)), (1, { Name := some "Dup" })].map Prod.snd).Nodup := by
  exact ⟨rfl, by decide⟩

/-- C1 (amended): both concatenation steps use `ignore_index=True`, which
resets the index to a duplicate-free range, so the `verify_integrity` check
(which inspects the index, not row contents) never fires: the concatenation
always succeeds, whether or not exact full-row duplicates exist. -/
theorem concat_steps_never_fail (ppl custom : DF) (q : PyVal) (pred : Row → Bool)
    (subs : List (String × Substation)) (fts : List String) :
    (∃ df, add_custom_powerplants ppl custom q pred = Except.ok df) ∧
    (∃ df, add_everywhere_powerplants ppl subs fts = Except.ok df) := by
  constructor
  · unfold add_custom_powerplants
    by_cases h : q.truthy
    · simp only [h, Bool.not_true, Bool.false_eq_true, if_false]
      exact ⟨_, pdConcat_ignoreIndex ..⟩
    · simp only [Bool.not_eq_true] at h
      simp only [h, Bool.not_false, if_true]
      exact ⟨_, rfl⟩
  · unfold add_everywhere_powerplants
    exact ⟨_, pdConcat_ignoreIndex ..⟩

/-! ## C10 -/

/-- C10: any falsy `custom_ppl_query` value (`False`, `""`, `0`, `None`)
makes `add_custom_powerplants` return the base frame unchanged; the custom
source never enters the result (it is universally quantified here). -/
theorem add_custom_powerplants_falsy (ppl custom : DF) (q : PyVal)
    (pred : Row → Bool) (h : q.truthy = false) :
    add_custom_powerplants ppl custom q pred = Except.ok ppl := by
  unfold add_custom_powerplants
  rw [h]
  rfl

/-- Witness for C10 at the empty-string filter (and the other falsy values). -/
theorem add_custom_powerplants_falsy_witness :
    (PyVal.pstr "").truthy = false ∧ PyVal.pnone.truthy = false ∧
    (PyVal.pint 0).truthy = false ∧
    add_custom_powerplants [] [(0, { Name := some "C" })] (PyVal.pstr "") (fun _ => true) =
      Except.ok [] :=
  ⟨by decide, by decide, by decide,
    add_custom_powerplants_falsy [] [(0, { Name := some "C" })] (PyVal.pstr "")
      (fun _ => true) (by decide)⟩

/-! ## C3 -/

/-- C3 counterexample: on a Natural-Gas row, a technology value outside the
replacement dictionary (here "Gas Turbine") is kept, not mapped to "CCGT" —
`Series.replace` only maps dictionary keys and `fillna` only fills NaN. -/
theorem replace_technology_keeps_other_values :
    replace_natural_gas_technology
        { Fueltype := some "Natural Gas", Technology := some "Gas Turbine" } =
      some "Gas Turbine" ∧
    (some "Gas Turbine" : Option String) ≠ some "CCGT" :=
  ⟨rfl, by decide⟩

/-- C3 (amended): on rows with `Fueltype = "Natural Gas"`, the technology
rewrite maps "Steam Turbine" to "CCGT", "Combustion Engine" to "OCGT" and
null to "CCGT", and keeps every other technology value unchanged; rows with
any other fueltype keep their original technology. -/
theorem replace_natural_gas_technology_spec (r : Row) (t : String) :
    (r.Fueltype = some "Natural Gas" → r.Technology = some "Steam Turbine" →
      replace_natural_gas_technology r = some "CCGT") ∧
    (r.Fueltype = some "Natural Gas" → r.Technology = some "Combustion Engine" →
      replace_natural_gas_technology r = some "OCGT") ∧
    (r.Fueltype = some "Natural Gas" → r.Technology = none →
      replace_natural_gas_technology r = some "CCGT") ∧
    (r.Fueltype = some "Natural Gas" → r.Technology = some t →
      t ≠ "Steam Turbine" → t ≠ "Combustion Engine" →
      replace_natural_gas_technology r = some t) ∧
    (r.Fueltype ≠ some "Natural Gas" → replace_natural_gas_technology r = r.Technology) :=
  by
  refine ⟨?_, ?_, ?_, ?_, ?_⟩
  · intro hf ht
    simp [replace_natural_gas_technology, hf, ht]
  · intro hf ht
    simp [replace_natural_gas_technology, hf, ht]
  · intro hf ht
    simp [replace_natural_gas_technology, hf, ht]
  · intro hf ht h1 h2
    simp [replace_natural_gas_technology, hf, ht, h1, h2]
  · intro hf
    simp [replace_natural_gas_technology, hf]

/-- Witness for C3 (amended) at a Natural-Gas row with technology "Fuel Cell". -/
theorem replace_natural_gas_technology_spec_witness :
    replace_natural_gas_technology
        { Fueltype := some "Natural Gas", Technology := some "Fuel Cell" } =
      some "Fuel Cell" :=
  (replace_natural_gas_technology_spec
      { Fueltype := some "Natural Gas", Technology := some "Fuel Cell" }
      "Fuel Cell").2.2.2.1 rfl rfl (by decide) (by decide)

/-! ## C2 -/

/-- C2 (amended, the direction that holds): right after the two
canonicalization assigns of stage 1, every row whose technology is OCGT or
CCGT has fueltype "Natural Gas".  The converse direction and the extension
to rows appended later in the pipeline are refuted by the counterexample. -/
theorem canonicalized_ocgt_ccgt_fueltype (df : DF) (e : Nat × Row)
    (he : e ∈ canonicalizeDF df)
    (ht : e.2.Technology = some "OCGT" ∨ e.2.Technology = some "CCGT") :
    e.2.Fueltype = some "Natural Gas" := by
  obtain ⟨e0, -, rfl⟩ := List.mem_map.1 he
  simp only [canonicalizeRow] at ht ⊢
  rw [replace_natural_gas_fueltype, if_pos]
  exact ht

/-- Witness for C2 (amended): a Coal row with OCGT technology gets fueltype
"Natural Gas" assigned by the canonicalization. -/
theorem canonicalized_ocgt_ccgt_fueltype_witness :
    (canonicalizeRow { Fueltype := some "Coal", Technology := some "OCGT" }).Fueltype =
      some "Natural Gas" :=
  canonicalized_ocgt_ccgt_fueltype
    [(0, { Fueltype := some "Coal", Technology := some "OCGT" })]
    (0, canonicalizeRow { Fueltype := some "Coal", Technology := some "OCGT" })
    (by simp [canonicalizeDF]) (by decide)

/-- C2 counterexample: a complete pipeline run configured with an
everywhere-powerplant of fueltype "Natural Gas".  The synthesized output row
has `Fueltype = "Natural Gas"` but `Technology = "Natural Gas"` (the
synthesis copies the fueltype into the technology column and is never
canonicalized), so the output-row pairing invariant fails in the
fueltype-to-technology direction. -/
theorem pipeline_gas_pairing_fails :
    buildPowerplants
        [(0, { Name := some "Base", Fueltype := some "Coal", Technology := some "Steam Turbine", Country := some "DE", Capacity := some 100, DateIn := some 1990, DateOut := some 2030, lat := some 50, lon := some 10 })]
        ["DE"] [] (PyVal.pbool false) (fun _ => true) [] (PyVal.pbool false) (fun _ => true)
        [("bus1", { x := 10, y := 50, country := "DE" })] ["Natural Gas"] (fun _ => some "bus1") =
      Except.ok
        ([{ Name := some "Base", Fueltype := some "Coal", Technology := some "Steam Turbine", Country := some "DE", Capacity := some 100, DateIn := some 1990, DateOut := some 2030, lat := some 50, lon := some 10, bus := some "bus1" },
          { Name := some "Automatically added everywhere-powerplant Natural Gas", Fueltype := some "Natural Gas", Technology := some "Natural Gas", Set := some "PP", Country := some "DE", Capacity := some 0, DateIn := some 1990, DateOut := some 2030, lat := some 50, lon := some 10, bus := some "bus1" }],
         none) ∧
    (some "Natural Gas" : Option String) ≠ some "OCGT" ∧
    (some "Natural Gas" : Option String) ≠ some "CCGT" := by
  exact ⟨rfl, by decide, by decide⟩

/-! ## C7 -/

/-- One row is a fixed point of the composed canonicalization after one
application. -/
lemma canonicalizeRow_idem (r : Row) : canonicalizeRow (canonicalizeRow r) = canonicalizeRow r := by
  obtain ⟨nm, ft, tech, st, co, cap, di, dd, ef, la, lo, bu⟩ := r
  rcases tech with _ | t
  · by_cases hft : ft = some "Natural Gas" <;>
      simp [canonicalizeRow, replace_natural_gas_technology, replace_natural_gas_fueltype, hft]
  · by_cases hft : ft = some "Natural Gas"
    · by_cases h1 : t = "Steam Turbine"
      · simp [canonicalizeRow, replace_natural_gas_technology, replace_natural_gas_fueltype, hft, h1]
      · by_cases h2 : t = "Combustion Engine"
        · simp [canonicalizeRow, replace_natural_gas_technology, replace_natural_gas_fueltype, hft, h1, h2]
        · simp [canonicalizeRow, replace_natural_gas_technology, replace_natural_gas_fueltype, hft, h1, h2]
    · by_cases hO : t = "OCGT"
      · simp [canonicalizeRow, replace_natural_gas_technology, replace_natural_gas_fueltype, hft, hO]
      · by_cases hC : t = "CCGT"
        · simp [canonicalizeRow, replace_natural_gas_technology, replace_natural_gas_fueltype, hft, hC]
        · simp [canonicalizeRow, replace_natural_gas_technology, replace_natural_gas_fueltype, hft, hO, hC]

/-- C7: the composition "technology rewrite then fueltype rewrite" is
idempotent on whole frames: applying it twice equals applying it once. -/
theorem canonicalizeDF_idempotent (df : DF) :
    canonicalizeDF (canonicalizeDF df) = canonicalizeDF df := by
  induction df with
  | nil => rfl
  | cons e t ih =>
    simp only [canonicalizeDF, List.map_cons, List.map_map] at ih ⊢
    rw [canonicalizeRow_idem]
    exact congrArg _ ih

/-! ## C8 -/

/-- The secondary (OPSD) rows the spec says survive the biomass
reconciliation: bioenergy rows in a target country, renamed "Biomass"
(reference definition following the spec wording, for comparison with
`biomassCorrection`). -/
def biomassSecondarySpec (opsd : DF) (countries : List String) : DF :=
  (opsd.filter fun e =>
      (e.2.Fueltype == some "Bioenergy")
        && (match e.2.Country with | some c => countries.contains c | none => false)).map
    fun e => (e.1, { e.2 with Name := some "Biomass" })

/-- The distinct countries of the filtered secondary rows (spec reference
definition). -/
def biomassAvailableSpec (opsd : DF) (countries : List String) : List String :=
  ((biomassSecondarySpec opsd countries).filterMap fun e => e.2.Country).dedup

/-- The primary rows the spec says survive: those not superseded by the
secondary source (spec reference definition). -/
def biomassPrimaryKeptSpec (ppl opsd : DF) (countries : List String) : DF :=
  ppl.filter fun e =>
    ! ((e.2.Fueltype == some "Bioenergy")
      && (match e.2.Country with
          | some c => (biomassAvailableSpec opsd countries).contains c
          | none => false))

/-- C8: the biomass reconciliation returns exactly the non-superseded primary
rows followed by the filtered, renamed secondary rows; the plain `pd.concat`
used here never fails, duplicates or not. -/
theorem biomassCorrection_spec (ppl opsd : DF) (countries : List String) :
    biomassCorrection ppl opsd countries =
      Except.ok (biomassPrimaryKeptSpec ppl opsd countries ++ biomassSecondarySpec opsd countries) := by
  have hQ : (opsd.filter fun e =>
        (match e.2.Country with | some c => countries.contains c | none => false)
          && (e.2.Fueltype == some "Bioenergy")) =
      opsd.filter fun e =>
        (e.2.Fueltype == some "Bioenergy")
          && (match e.2.Country with | some c => countries.contains c | none => false) := by
    apply List.filter_congr
    intro e _
    exact Bool.and_comm _ _
  simp only [biomassCorrection, hQ, pdConcat_plain, biomassPrimaryKeptSpec,
    biomassAvailableSpec, biomassSecondarySpec]
  congr 2
  apply List.filter_congr
  intro e _
  rw [Bool.and_comm]

/-! ## C9 -/

/-- The masked row selection `ppl[~bus_null_b]` keeps exactly the rows with a
non-null bus. -/
lemma mask_filterMap (df : DF) :
    ((df.zip (df.map fun e => e.2.bus.isNone)).filterMap
        fun p => if p.2 then none else some p.1) =
      df.filter fun e => e.2.bus.isSome := by
  induction df with
  | nil => rfl
  | cons e t ih =>
    simp only [List.map_cons, List.zip_cons_cons, List.filterMap_cons, List.filter_cons]
    cases hb : e.2.bus with
    | none => simpa [hb] using ih
    | some v => simpa [hb] using ih

/-- The mask sum `bus_null_b.sum()` counts the rows with a null bus. -/
lemma mask_count (df : DF) :
    ((df.map fun e => e.2.bus.isNone).count true) =
      (df.filter fun e => e.2.bus.isNone).length := by
  induction df with
  | nil => rfl
  | cons e t ih => cases hb : e.2.bus <;> simp [List.count_cons, List.filter_cons, hb, ih]

/-- The mask test `bus_null_b.any()` holds exactly when some row has a null bus. -/
lemma mask_any (df : DF) :
    ((df.map fun e => e.2.bus.isNone).any id = true) ↔
      (df.filter fun e => e.2.bus.isNone).length ≠ 0 := by
  induction df with
  | nil => simp
  | cons e t ih => cases hb : e.2.bus <;> simp [hb, List.filter_cons, ih]

/-- C9: the missing-bus stage keeps exactly the rows with a non-null bus
(so every surviving row has one), and warns — with the count of null-bus
rows — precisely when at least one row was dropped. -/
theorem dropMissingBus_spec (df : DF) :
    (dropMissingBus df).1 = df.filter (fun e => e.2.bus.isSome) ∧
    (∀ e ∈ (dropMissingBus df).1, e.2.bus.isSome = true) ∧
    (dropMissingBus df).2 =
      (if (df.filter fun e => e.2.bus.isNone).length = 0 then none
       else some (df.filter fun e => e.2.bus.isNone).length) := by
  have hmem : ∀ e ∈ df.filter (fun e => e.2.bus.isSome), e.2.bus.isSome = true := by
    intro e he
    exact (List.mem_filter.1 he).2
  unfold dropMissingBus
  by_cases h : (df.map fun e => e.2.bus.isNone).any id = true
  · simp only [h, if_true]
    refine ⟨mask_filterMap df, ?_, ?_⟩
    · rw [mask_filterMap df]
      exact hmem
    · rw [mask_count df, if_neg (mask_any df |>.1 h)]
  · have h' : (df.map fun e => e.2.bus.isNone).any id = false := by
      simpa using h
    have hlen : (df.filter fun e => e.2.bus.isNone).length = 0 := by
      by_contra hc
      exact h ((mask_any df).2 hc)
    have hall : ∀ e ∈ df, e.2.bus.isSome = true := by
      intro e he
      cases hb : e.2.bus with
      | none =>
        exfalso
        apply h
        exact List.any_eq_true.2 ⟨true, List.mem_map.2 ⟨e, he, by simp [hb]⟩, rfl⟩
      | some v => simp [hb]
    simp only [h', Bool.false_eq_true, if_false]
    refine ⟨?_, ?_, ?_⟩
    · exact (List.filter_eq_self.2 hall).symm
    · intro e he
      exact hall e he
    · rw [if_pos hlen]

/-- Witness for C9 on a two-row frame with one null bus: the null-bus row is
gone, the kept row has a bus, and the warning reports count 1. -/
theorem dropMissingBus_spec_witness :
    (dropMissingBus [(0, { Name := some "N" }), (1, { Name := some "S", bus := some "b1" })]).1 =
      [(1, { Name := some "S", bus := some "b1" })] ∧
    (((1, { Name := some "S", bus := some "b1" }) : Nat × Row)).2.bus.isSome = true ∧
    (dropMissingBus [(0, { Name := some "N" }), (1, { Name := some "S", bus := some "b1" })]).2 =
      some 1 := by
  have h := dropMissingBus_spec
    [(0, { Name := some "N" }), (1, { Name := some "S", bus := some "b1" })]
  refine ⟨?_, ?_, ?_⟩
  · rw [h.1]
    decide
  · exact h.2.1 (1, { Name := some "S", bus := some "b1" }) (by rw [h.1]; decide)
  · rw [h.2.2]
    decide

/-! ## C5 -/

/-- The deduplication pass preserves the number of rows. -/
lemma dedupNamesGo_length (ff : Bool) (l : List Row) :
    ∀ seen, (dedupNamesGo ff seen l).length = l.length := by
  induction l with
  | nil => intro seen; rfl
  | cons r rest ih => intro seen; simp [dedupNamesGo, ih]

/-- Positional characterization of the worker: row `i` is renamed against the
rows accumulated before it. -/
lemma dedupNamesGo_getD (ff : Bool) (l : List Row) : ∀ (seen : List Row) (i : Nat),
    i < l.length →
    (dedupNamesGo ff seen l).getD i default =
      renameRow ff (seen ++ l.take i) (l.getD i default) := by
  induction l with
  | nil => intro seen i h; simp at h
  | cons r rest ih =>
    intro seen i h
    cases i with
    | zero => simp [dedupNamesGo]
    | succ i =>
      simp only [dedupNamesGo, List.getD_cons_succ, List.take_succ_cons]
      rw [ih (seen ++ [r]) i (by simpa using h)]
      simp [List.append_assoc]

/-- Row `i` of the deduplicated frame only depends on the rows before it and
on the frame's suffix format. -/
lemma dedupNames_getD (rows : List Row) (i : Nat) (h : i < rows.length) :
    (dedupNames rows).getD i default =
      renameRow (rows.any fun r => r.bus.isNone || r.Fueltype.isNone)
        (rows.take i) (rows.getD i default) := by
  simpa [dedupNames] using dedupNamesGo_getD _ rows [] i h

/-- The 1-based occurrence number of row `i` within its `(bus, Fueltype)`
group, counting in original row order. -/
def groupOcc (rows : List Row) (i : Nat) : Nat :=
  ((rows.take i).filter fun s => rowKey s == rowKey (rows.getD i default)).length + 1

/-- C5 counterexample: with a NaN-keyed row anywhere in the frame (here a
row with null `Fueltype`), the cumcount series is float-typed, so the
second occurrence of "Plant A" in its group is renamed "Plant A 2.0" — not
its original name followed by a space and the decimal numeral of its
occurrence number, refuting the claim for such record sets. -/
theorem dedup_float_suffix_on_na_key :
    (dedupNames [{ Name := some "Z", bus := some "b" }, { Name := some "Plant A", Fueltype := some "Coal", bus := some "b" }, { Name := some "Plant A", Fueltype := some "Coal", bus := some "b" }]).map Row.Name =
      [some "Z nan", some "Plant A", some "Plant A 2.0"] ∧
    ("Plant A 2.0" : String) ≠ "Plant A" ++ " " ++ toString 2 :=
  ⟨by decide, by decide⟩

/-- C5 (amended): in a frame none of whose rows has a null bus or Fueltype
(so the cumcount series is integer-typed), the dedup pass keeps the length;
a row is unchanged when it is the first occurrence of its `(bus, Fueltype)`
group (in particular whenever its group has size 1) and otherwise gets its
1-based occurrence number `k ≥ 2` appended to its name as `" k"`.  When
some row has a null key component the suffix is instead `" k.0"` (see the
counterexample). -/
theorem dedupNames_spec (rows : List Row)
    (hna : (rows.any fun r => r.bus.isNone || r.Fueltype.isNone) = false)
    (i : Nat) (h : i < rows.length)
    (b f : String) (hb : (rows.getD i default).bus = some b)
    (hf : (rows.getD i default).Fueltype = some f) :
    (dedupNames rows).length = rows.length ∧
    (dedupNames rows).getD i default =
      (if groupOcc rows i = 1 then rows.getD i default
       else { rows.getD i default with
                Name := (rows.getD i default).Name.map
                  fun n => n ++ " " ++ toString (groupOcc rows i) }) := by
  have hb' : (rows[i]?.getD default).bus = some b := by simpa using hb
  have hf' : (rows[i]?.getD default).Fueltype = some f := by simpa using hf
  refine ⟨dedupNamesGo_length _ rows [], ?_⟩
  rw [dedupNames_getD rows i h, hna]
  unfold renameRow cumcount1 groupOcc cumcountStr
  rw [hb, hf]
  simp [hb', hf']

/-- Witness for C5 (amended): three identical "Plant A" coal plants at one
bus come out as "Plant A", "Plant A 2", "Plant A 3" in original row order. -/
theorem dedupNames_spec_witness :
    (dedupNames [{ Name := some "Plant A", Fueltype := some "Coal", bus := some "b" }, { Name := some "Plant A", Fueltype := some "Coal", bus := some "b" }, { Name := some "Plant A", Fueltype := some "Coal", bus := some "b" }]).map Row.Name =
      [some "Plant A", some "Plant A 2", some "Plant A 3"] ∧
    (dedupNames [{ Name := some "Plant A", Fueltype := some "Coal", bus := some "b" }, { Name := some "Plant A", Fueltype := some "Coal", bus := some "b" }, { Name := some "Plant A", Fueltype := some "Coal", bus := some "b" }]).length = 3 :=
  ⟨by decide,
    (dedupNames_spec [{ Name := some "Plant A", Fueltype := some "Coal", bus := some "b" }, { Name := some "Plant A", Fueltype := some "Coal", bus := some "b" }, { Name := some "Plant A", Fueltype := some "Coal", bus := some "b" }] (by decide) 2 (by decide) "b" "Coal" (by decide) (by decide)).1⟩

/-! ## C4 -/

/-- C4 counterexample: two distinct rows of the same `(bus, Fueltype)` group,
originally named "A 2" and "A", both end up named "A 2" after the
deduplication pass — the pass does not guarantee pairwise-distinct names. -/
theorem dedup_name_collision :
    (dedupNames [{ Name := some "A 2", Fueltype := some "Coal", bus := some "b" }, { Name := some "A", Fueltype := some "Coal", bus := some "b" }]).map Row.Name =
      [some "A 2", some "A 2"] ∧
    rowKey ({ Name := some "A 2", Fueltype := some "Coal", bus := some "b" } : Row) =
      rowKey { Name := some "A", Fueltype := some "Coal", bus := some "b" } ∧
    ({ Name := some "A 2", Fueltype := some "Coal", bus := some "b" } : Row) ≠
      { Name := some "A", Fueltype := some "Coal", bus := some "b" } :=
  ⟨by decide, by decide, by decide⟩

/-- The function `Nat.digitChar` is injective below 10. -/
lemma digitChar_inj_lt : ∀ a < 10, ∀ b < 10, Nat.digitChar a = Nat.digitChar b → a = b := by
  decide

/-- Mapping `Nat.digitChar` over digit lists (all entries < 10) is injective. -/
lemma map_digitChar_inj : ∀ (l1 l2 : List Nat), (∀ x ∈ l1, x < 10) → (∀ x ∈ l2, x < 10) →
    l1.map Nat.digitChar = l2.map Nat.digitChar → l1 = l2 := by
  intro l1
  induction l1 with
  | nil =>
    intro l2 _ _ hm
    cases l2 with
    | nil => rfl
    | cons b t => simp at hm
  | cons a t ih =>
    intro l2 h1 h2 hm
    cases l2 with
    | nil => simp at hm
    | cons b t2 =>
      simp only [List.map_cons, List.cons.injEq] at hm
      have ha : a = b := digitChar_inj_lt a (h1 a (by simp)) b (h2 b (by simp)) hm.1
      have ht : t = t2 := ih t2 (fun x hx => h1 x (by simp [hx])) (fun x hx => h2 x (by simp [hx])) hm.2
      rw [ha, ht]

/-- With enough fuel, `Nat.toDigitsCore` produces the base-10 digits (most
significant first) in front of the accumulator. -/
lemma toDigitsCore_eq_digits : ∀ (f n : Nat) (l : List Char), 0 < n → n < f →
    Nat.toDigitsCore 10 f n l = ((Nat.digits 10 n).map Nat.digitChar).reverse ++ l := by
  intro f
  induction f with
  | zero => intro n l h0 hf; omega
  | succ f ih =>
    intro n l h0 hf
    simp only [Nat.toDigitsCore]
    by_cases hdiv : n / 10 = 0
    · rw [if_pos hdiv]
      have hn : n < 10 := (Nat.div_eq_zero_iff (by norm_num)).1 hdiv
      have hd : Nat.digits 10 n = [n] := by
        rw [Nat.digits_def' (by norm_num : (1:ℕ) < 10) h0, Nat.mod_eq_of_lt hn, hdiv]
        simp
      rw [hd, Nat.mod_eq_of_lt hn]
      simp
    · rw [if_neg hdiv]
      have h0' : 0 < n / 10 := Nat.pos_of_ne_zero hdiv
      have hf' : n / 10 < f := by
        have : n / 10 < n := Nat.div_lt_self h0 (by norm_num)
        omega
      rw [ih (n / 10) (Nat.digitChar (n % 10) :: l) h0' hf']
      rw [Nat.digits_def' (by norm_num : (1:ℕ) < 10) h0]
      simp [List.append_assoc]

/-- The value of `Nat.toDigits 10` at a positive number is its digit string. -/
lemma toDigits10_pos (n : Nat) (h0 : 0 < n) :
    Nat.toDigits 10 n = ((Nat.digits 10 n).map Nat.digitChar).reverse := by
  rw [Nat.toDigits, toDigitsCore_eq_digits (n + 1) n [] h0 (Nat.lt_succ_self n),
    List.append_nil]

/-- The decimal representation `Nat.repr` is injective. -/
lemma natRepr_inj (m n : Nat) (h : Nat.repr m = Nat.repr n) : m = n := by
  have hd : Nat.toDigits 10 m = Nat.toDigits 10 n := by
    have h2 := congrArg String.data h
    simpa [Nat.repr, List.asString] using h2
  have key : ∀ k : Nat, 0 < k → Nat.toDigits 10 0 = Nat.toDigits 10 k → False := by
    intro k hk hdk
    rw [toDigits10_pos k hk] at hdk
    have hlen := congrArg List.length hdk
    simp at hlen
    obtain ⟨d, hd1⟩ := List.length_eq_one.1 hlen.symm
    rw [hd1] at hdk
    have hchar : Nat.digitChar d = '0' := by
      simpa [Nat.toDigits, Nat.toDigitsCore] using hdk.symm
    have hdlt : d < 10 := Nat.digits_lt_base (by norm_num) (by rw [hd1]; simp)
    have hd0 : d = 0 := digitChar_inj_lt d hdlt 0 (by norm_num) (by simpa using hchar)
    have hof := Nat.ofDigits_digits 10 k
    rw [hd1, hd0] at hof
    simp [Nat.ofDigits] at hof
    omega
  rcases Nat.eq_zero_or_pos m with hm | hm
  · rcases Nat.eq_zero_or_pos n with hn | hn
    · omega
    · exact absurd (key n hn (hm ▸ hd)) not_false
  · rcases Nat.eq_zero_or_pos n with hn | hn
    · exact absurd (key m hm (hn ▸ hd.symm)) not_false
    · rw [toDigits10_pos m hm, toDigits10_pos n hn] at hd
      have h1 := List.reverse_injective hd
      have h2 := map_digitChar_inj _ _
        (fun x hx => Nat.digits_lt_base (by norm_num) hx)
        (fun x hx => Nat.digits_lt_base (by norm_num) hx) h1
      have h3 := congrArg (Nat.ofDigits 10) h2
      rw [Nat.ofDigits_digits, Nat.ofDigits_digits] at h3
      exact_mod_cast h3

/-- The function `toString` on naturals is injective. -/
lemma natToString_inj (m n : Nat) (h : toString m = toString n) : m = n :=
  natRepr_inj m n h

/-- Appending on `String` cancels on the left. -/
lemma string_append_left_cancel (s t u : String) (h : s ++ t = s ++ u) : t = u := by
  have hd := congrArg String.data h
  simp only [String.data_append] at hd
  have h2 := List.append_cancel_left hd
  cases t
  cases u
  exact congrArg String.mk h2

/-- Appending on `String` cancels on the right. -/
lemma string_append_right_cancel (s t u : String) (h : s ++ u = t ++ u) : s = t := by
  have hd := congrArg String.data h
  simp only [String.data_append] at hd
  have h2 := List.append_cancel_right hd
  cases s
  cases t
  exact congrArg String.mk h2

/-- The rendered cumcount suffix is injective in the count, for either
series dtype. -/
lemma cumcountStr_inj (ff : Bool) (a b : Nat) (h : cumcountStr ff a = cumcountStr ff b) :
    a = b := by
  cases ff with
  | false =>
    simp only [cumcountStr, Bool.false_eq_true, if_false] at h
    exact natToString_inj _ _ h
  | true =>
    simp only [cumcountStr, if_true] at h
    exact natToString_inj _ _ (string_append_right_cancel _ _ _ h)

/-- An in-range `getD` is a member. -/
lemma getD_mem_of_lt {α} [Inhabited α] (l : List α) (i : Nat) (h : i < l.length) :
    l.getD i default ∈ l := by
  rw [List.getD_eq_getElem?_getD, List.getElem?_eq_getElem h]
  simp

/-- Dropping up to an in-range position exposes that element in front. -/
lemma drop_eq_getD_cons {α} [Inhabited α] (l : List α) (i : Nat) (h : i < l.length) :
    l.drop i = l.getD i default :: l.drop (i + 1) := by
  rw [List.getD_eq_getElem?_getD, List.getElem?_eq_getElem h]
  simp only [Option.getD_some]
  exact List.drop_eq_getElem_cons h

/-- C4 (amended): inside a `(bus, Fueltype)` group with non-null key whose
rows all carry the same non-null original `Name`, the deduplication pass
yields pairwise distinct names (the first occurrence keeps the name, later
occurrences get distinct numeral suffixes); for unrestricted original names
distinctness can fail, as the counterexample shows. -/
theorem dedupNames_distinct_of_uniform (rows : List Row) (b f nm : String)
    (huni : ∀ r ∈ rows, r.bus = some b → r.Fueltype = some f → r.Name = some nm)
    (i j : Nat) (hij : i < j) (hj : j < rows.length)
    (hbi : (rows.getD i default).bus = some b)
    (hfi : (rows.getD i default).Fueltype = some f)
    (hbj : (rows.getD j default).bus = some b)
    (hfj : (rows.getD j default).Fueltype = some f) :
    ((dedupNames rows).getD i default).Name ≠ ((dedupNames rows).getD j default).Name := by
  have hi : i < rows.length := Nat.lt_trans hij hj
  have hki : rowKey (rows.getD i default) = (some b, some f) := by
    unfold rowKey
    rw [hbi, hfi]
  have hkj : rowKey (rows.getD j default) = (some b, some f) := by
    unfold rowKey
    rw [hbj, hfj]
  have hnmi : (rows.getD i default).Name = some nm :=
    huni _ (getD_mem_of_lt rows i hi) hbi hfi
  have hnmj : (rows.getD j default).Name = some nm :=
    huni _ (getD_mem_of_lt rows j hj) hbj hfj
  have hcnt :
      ((rows.take i).filter
        fun s => rowKey s == ((some b, some f) : Option String × Option String)).length <
      ((rows.take j).filter
        fun s => rowKey s == ((some b, some f) : Option String × Option String)).length := by
    have hj' : i + (j - i) = j := by omega
    have hsplit : rows.take j = rows.take i ++ (rows.drop i).take (j - i) := by
      rw [← List.take_add, hj']
    have hone : 1 ≤ (((rows.drop i).take (j - i)).filter
        fun s => rowKey s == ((some b, some f) : Option String × Option String)).length := by
      rw [drop_eq_getD_cons rows i hi]
      obtain ⟨k, hk⟩ : ∃ k, j - i = k + 1 := ⟨j - i - 1, by omega⟩
      rw [hk, List.take_succ_cons,
        List.filter_cons_of_pos (by rw [hki]; exact beq_self_eq_true _)]
      simp
    rw [hsplit, List.filter_append, List.length_append]
    omega
  rw [dedupNames_getD rows i hi, dedupNames_getD rows j hj]
  unfold renameRow cumcount1
  rw [hbi, hfi, hbj, hfj, hki, hkj]
  simp only []
  set cI := ((rows.take i).filter
    fun s => rowKey s == ((some b, some f) : Option String × Option String)).length with hCI
  set cJ := ((rows.take j).filter
    fun s => rowKey s == ((some b, some f) : Option String × Option String)).length with hCJ
  rw [if_neg (by omega : ¬ cJ + 1 = 1)]
  by_cases hci : cI = 0
  · rw [hci, if_pos (by norm_num)]
    simp only [hnmi, hnmj, Option.map_some']
    intro heq
    have h3 := Option.some.inj heq
    have hlen := congrArg String.length h3
    rw [String.length_append, String.length_append] at hlen
    have hsp : (" " : String).length = 1 := rfl
    omega
  · rw [if_neg (by omega : ¬ cI + 1 = 1)]
    simp only [hnmi, hnmj, Option.map_some']
    intro heq
    have h3 := Option.some.inj heq
    have h4 := string_append_left_cancel (nm ++ " ") _ _ h3
    have h5 := cumcountStr_inj _ _ _ h4
    omega

/-- Witness for C4 (amended) on two identical rows: their output names
differ. -/
theorem dedupNames_distinct_of_uniform_witness :
    ((dedupNames [{ Name := some "X", Fueltype := some "Coal", bus := some "b" }, { Name := some "X", Fueltype := some "Coal", bus := some "b" }]).getD 0 default).Name ≠
      ((dedupNames [{ Name := some "X", Fueltype := some "Coal", bus := some "b" }, { Name := some "X", Fueltype := some "Coal", bus := some "b" }]).getD 1 default).Name :=
  dedupNames_distinct_of_uniform
    [{ Name := some "X", Fueltype := some "Coal", bus := some "b" }, { Name := some "X", Fueltype := some "Coal", bus := some "b" }]
    "b" "Coal" "X" (by decide) 0 1 (by decide) (by decide)
    (by decide) (by decide) (by decide) (by decide)

/-! ## C6 -/

/-- With a duplicate-free substation index, the merge key lookup finds
exactly the one owning substation (pandas inner merge on a unique right
index). -/
lemma filter_key_eq_singleton (subs : List (String × Substation))
    (hnd : (subs.map Prod.fst).Nodup) (s : String × Substation) (hs : s ∈ subs) :
    subs.filter (fun q => q.1 == s.1) = [s] := by
  induction subs with
  | nil => cases hs
  | cons a t ih =>
    simp only [List.map_cons, List.nodup_cons] at hnd
    rcases List.mem_cons.1 hs with rfl | hmem
    · have hnil : t.filter (fun q => q.1 == s.1) = [] :=
        List.filter_eq_nil_iff.2 fun q hq hpq =>
          hnd.1 ((eq_of_beq hpq) ▸ List.mem_map_of_mem Prod.fst hq)
      rw [List.filter_cons, if_pos (beq_self_eq_true s.1), hnil]
    · have hne : (a.1 == s.1) = false := by
        apply beq_eq_false_iff_ne.2
        intro hEq
        apply hnd.1
        rw [hEq]
        exact List.mem_map_of_mem Prod.fst hmem
      rw [List.filter_cons, if_neg (by simp [hne])]
      exact ih hnd.2 hmem

/-- Length of a flat map with constant inner length: the cross-product size. -/
lemma flatMap_const_length {α β : Type} (l : List α) (g : α → List β) (K : Nat)
    (hg : ∀ a ∈ l, (g a).length = K) : (l.flatMap g).length = l.length * K := by
  induction l with
  | nil => simp
  | cons a t ih =>
    simp only [List.flatMap_cons, List.length_append, List.length_cons,
      hg a (by simp), ih fun x hx => hg x (by simp [hx])]
    ring

/-- Positional access into a flat map with constant inner length: entry `k`
lives in block `k / K` at offset `k % K`. -/
lemma flatMap_getD {α β : Type} [Inhabited α] [Inhabited β] (l : List α) (g : α → List β)
    (K : Nat) (hg : ∀ a ∈ l, (g a).length = K) :
    ∀ k, k < l.length * K →
      (l.flatMap g).getD k default = (g (l.getD (k / K) default)).getD (k % K) default := by
  induction l with
  | nil => intro k hk; simp at hk
  | cons a t ih =>
    intro k hk
    have hK : 0 < K := by
      rcases Nat.eq_zero_or_pos K with h0 | h
      · subst h0; simp at hk
      · exact h
    by_cases hsmall : k < K
    · rw [List.flatMap_cons,
        List.getD_append _ _ _ _ (by rw [hg a (by simp)]; exact hsmall),
        Nat.div_eq_of_lt hsmall, Nat.mod_eq_of_lt hsmall]
      simp
    · push_neg at hsmall
      obtain ⟨m, rfl⟩ : ∃ m, k = m + K := ⟨k - K, by omega⟩
      have hm : m < t.length * K := by
        simp only [List.length_cons] at hk
        have : (t.length + 1) * K = t.length * K + K := by ring
        omega
      rw [List.flatMap_cons,
        List.getD_append_right _ _ _ _ (by rw [hg a (by simp)]; omega)]
      rw [hg a (by simp)]
      have harith : m + K - K = m := by omega
      rw [harith, ih (fun x hx => hg x (by simp [hx])) m hm,
        Nat.add_div_right m hK, Nat.add_mod_right m K]
      simp

/-- Reading a row out of a freshly range-indexed frame. -/
lemma mkDF_getD_snd (l : List Row) (n : Nat) (h : n < l.length) :
    ((mkDF l).getD n default).2 = l.getD n default := by
  have hlen : n < (mkDF l).length := by simp [mkDF, h]
  rw [List.getD_eq_getElem?_getD, List.getElem?_eq_getElem hlen,
    List.getD_eq_getElem?_getD, List.getElem?_eq_getElem h]
  simp [mkDF]

/-- In-range `getD` commutes with `map`. -/
lemma getD_map_of_lt {α β : Type} [Inhabited α] [Inhabited β] (l : List α) (n : Nat)
    (h : n < l.length) (f : α → β) : (l.map f).getD n default = f (l.getD n default) := by
  rw [List.getD_eq_getElem?_getD, List.getElem?_eq_getElem (by simpa using h),
    List.getD_eq_getElem?_getD, List.getElem?_eq_getElem h]
  simp

/-- Pointwise congruence for `flatMap`. -/
lemma flatMap_congr_mem {α β : Type} (l : List α) (f g : α → List β)
    (h : ∀ a ∈ l, f a = g a) : l.flatMap f = l.flatMap g := by
  induction l with
  | nil => rfl
  | cons a t ih => simp [List.flatMap_cons, h a (by simp), ih fun x hx => h x (by simp [hx])]

/-- Flat-mapping singletons is mapping. -/
lemma flatMap_singleton_map {α β : Type} (l : List α) (h : α → β) :
    (l.flatMap fun x => [h x]) = l.map h := by
  induction l with
  | nil => rfl
  | cons a t ih => simp [List.flatMap_cons, ih]

/-- Under a duplicate-free substation index, the product-and-merge step pairs
each substation with each fuel type exactly once, in product order. -/
lemma merged_eq (subs : List (String × Substation)) (fts : List String)
    (hnd : (subs.map Prod.fst).Nodup) :
    ((subs.flatMap fun s => fts.map fun ft => (s.1, ft)).flatMap fun p =>
        (subs.filter fun q => q.1 == p.1).map fun q => (p.2, q.2)) =
      subs.flatMap fun s => fts.map fun ft => (ft, s.2) := by
  rw [List.flatMap_assoc]
  apply flatMap_congr_mem
  intro s hs
  rw [List.flatMap_map]
  have h1 : ∀ ft ∈ fts,
      (subs.filter fun q => q.1 == (s.1, ft).1).map (fun q => ((s.1, ft).2, q.2)) =
        [(ft, s.2)] := by
    intro ft _
    show (subs.filter fun q => q.1 == s.1).map (fun q => (ft, q.2)) = [(ft, s.2)]
    rw [filter_key_eq_singleton subs hnd s hs]
    rfl
  rw [flatMap_congr_mem fts
      (fun a => (subs.filter fun q => q.1 == (s.1, a).1).map fun q => ((s.1, a).2, q.2))
      (fun ft => [(ft, s.2)]) h1,
    flatMap_singleton_map]

/-- The rows of a freshly range-indexed frame. -/
lemma mkDF_map_snd (rows : List Row) : (mkDF rows).map Prod.snd = rows := by
  unfold mkDF
  exact List.map_snd_zip _ _ (by simp)

/-- C6: with a duplicate-free substation index (as in pypsa networks),
`add_everywhere_powerplants` appends exactly N×K rows — one per
(substation, fueltype) pair, substation-major — and every appended row has
zero capacity, Set "PP", technology equal to its fueltype, the generated
name embedding the fueltype, location and country copied from the
substation (x→lon, y→lat), `DateIn`/`DateOut` equal to the base frame's
min/max, and null efficiency. -/
theorem add_everywhere_powerplants_spec (ppl : DF) (subs : List (String × Substation))
    (fts : List String) (hnd : (subs.map Prod.fst).Nodup) :
    ∃ out, add_everywhere_powerplants ppl subs fts = Except.ok out ∧
      out.length = ppl.length + subs.length * fts.length ∧
      ∀ k, k < subs.length * fts.length →
        ((out.getD (ppl.length + k) default).2.Name =
            some ("Automatically added everywhere-powerplant " ++ fts.getD (k % fts.length) default) ∧
          (out.getD (ppl.length + k) default).2.Fueltype = some (fts.getD (k % fts.length) default) ∧
          (out.getD (ppl.length + k) default).2.Technology = some (fts.getD (k % fts.length) default) ∧
          (out.getD (ppl.length + k) default).2.Set = some "PP" ∧
          (out.getD (ppl.length + k) default).2.Country = some (subs.getD (k / fts.length) default).2.country ∧
          (out.getD (ppl.length + k) default).2.Capacity = some 0 ∧
          (out.getD (ppl.length + k) default).2.DateIn = seriesMin (ppl.map fun e => e.2.DateIn) ∧
          (out.getD (ppl.length + k) default).2.DateOut = seriesMax (ppl.map fun e => e.2.DateOut) ∧
          (out.getD (ppl.length + k) default).2.Efficiency = none ∧
          (out.getD (ppl.length + k) default).2.lat = some (subs.getD (k / fts.length) default).2.y ∧
          (out.getD (ppl.length + k) default).2.lon = some (subs.getD (k / fts.length) default).2.x) := by
  have hrun : add_everywhere_powerplants ppl subs fts =
      Except.ok (mkDF (ppl.map Prod.snd ++
        ((subs.flatMap fun s => fts.map fun ft => (ft, s.2)).map fun q =>
          everywhereRow (seriesMin (ppl.map fun e => e.2.DateIn))
            (seriesMax (ppl.map fun e => e.2.DateOut)) q.1 q.2))) := by
    unfold add_everywhere_powerplants
    simp only []
    rw [merged_eq subs fts hnd, pdConcat_ignoreIndex, mkDF_map_snd]
  have hew : ((subs.flatMap fun s => fts.map fun ft => (ft, s.2)).map fun q =>
        everywhereRow (seriesMin (ppl.map fun e => e.2.DateIn))
          (seriesMax (ppl.map fun e => e.2.DateOut)) q.1 q.2) =
      subs.flatMap fun s => fts.map fun ft =>
        everywhereRow (seriesMin (ppl.map fun e => e.2.DateIn))
          (seriesMax (ppl.map fun e => e.2.DateOut)) ft s.2 := by
    rw [List.map_flatMap]
    apply flatMap_congr_mem
    intro s _
    rw [List.map_map]
    rfl
  rw [hew] at hrun
  have hlen_ew : (subs.flatMap fun s => fts.map fun ft =>
      everywhereRow (seriesMin (ppl.map fun e => e.2.DateIn))
        (seriesMax (ppl.map fun e => e.2.DateOut)) ft s.2).length =
      subs.length * fts.length :=
    flatMap_const_length subs _ fts.length (fun a _ => by simp)
  refine ⟨_, hrun, ?_, ?_⟩
  · simp [mkDF, hlen_ew]
  · intro k hk
    have hK : 0 < fts.length := by
      rcases Nat.eq_zero_or_pos fts.length with h0 | h
      · rw [h0] at hk
        simp at hk
      · exact h
    have hklt : ppl.length + k < (ppl.map Prod.snd ++
        (subs.flatMap fun s => fts.map fun ft =>
          everywhereRow (seriesMin (ppl.map fun e => e.2.DateIn))
            (seriesMax (ppl.map fun e => e.2.DateOut)) ft s.2)).length := by
      rw [List.length_append, List.length_map, hlen_ew]
      omega
    have h1 := mkDF_getD_snd _ _ hklt
    rw [h1, List.getD_append_right _ _ _ _ (by simp)]
    simp only [List.length_map, Nat.add_sub_cancel_left]
    rw [flatMap_getD subs _ fts.length (fun a _ => by simp) k hk]
    rw [getD_map_of_lt fts (k % fts.length) (Nat.mod_lt k hK) _]
    exact ⟨rfl, rfl, rfl, rfl, rfl, rfl, rfl, rfl, rfl, rfl, rfl⟩

/-- Witness for C6: one substation and one fuel type yield exactly one
appended zero-capacity row. -/
theorem add_everywhere_powerplants_spec_witness :
    ∃ out, add_everywhere_powerplants [] [("s1", { x := 3, y := 4, country := "DE" })] ["Coal"] =
        Except.ok out ∧ out.length = 1 ∧ (out.getD 0 default).2.Capacity = some 0 := by
  obtain ⟨out, h1, h2, h3⟩ := add_everywhere_powerplants_spec []
    [("s1", { x := 3, y := 4, country := "DE" })] ["Coal"] (by decide)
  refine ⟨out, h1, by simpa using h2, ?_⟩
  have h4 := (h3 0 (by norm_num)).2.2.2.2.2.1
  simpa using h4
